import Mathlib

/-!
# Verification of the Life Goals Predictor 2050 pipeline

A shallow embedding, in Lean 4, of `lifegoals2050.py`: the seed derivation
(SHA-256 based), the weighted sampler, the content tables, the rule engine,
the Monte Carlo aggregator, the reroll operation and the narrative renderer.

Modelling conventions:
* Python dicts holding trait items become the structure `Item`; optional keys
  become `Option` fields read with `Option.getD`, mirroring `dict.get(k, d)`.
  The empty dict `{}` is `Item.empty` (all fields at their defaults).
* Machine-independent integers are `Nat`/`Int`; all SHA-256 word arithmetic is
  carried out modulo `2 ^ 32` explicitly.
* The Mersenne-Twister back end of `random.Random` is abstracted, exactly as
  the design notes prescribe ("seed in, sequence of uniform draws out"),
  as a `Backend` of pure functions from (seed, step) to a draw; the seed
  itself is computed by the real SHA-256 derivation.  Every theorem about
  sampling is proved for an arbitrary back end.
* `rng.uniform`/`rng.shuffle` advance an explicit step counter, so the
  sequencing of draws in the Python code (including branches that do not
  draw at all) is reproduced faithfully.
-/

set_option maxRecDepth 10000

namespace LifeGoals

/-! ## SHA-256 over byte lists (`hashlib.sha256`) -/

/-- Rotate a 32-bit word right by `n`. -/
def rotr (n w : Nat) : Nat := ((w >>> n) ||| (w <<< (32 - n))) % 4294967296

/-- Bitwise complement on 32-bit words. -/
def bnot32 (w : Nat) : Nat := 4294967295 ^^^ w

def bigSigma0 (x : Nat) : Nat := rotr 2 x ^^^ rotr 13 x ^^^ rotr 22 x

def bigSigma1 (x : Nat) : Nat := rotr 6 x ^^^ rotr 11 x ^^^ rotr 25 x

def smallSigma0 (x : Nat) : Nat := rotr 7 x ^^^ rotr 18 x ^^^ (x >>> 3)

def smallSigma1 (x : Nat) : Nat := rotr 17 x ^^^ rotr 19 x ^^^ (x >>> 10)

def chFn (x y z : Nat) : Nat := (x &&& y) ^^^ (bnot32 x &&& z)

def majFn (x y z : Nat) : Nat := (x &&& y) ^^^ (x &&& z) ^^^ (y &&& z)

/-- The 64 SHA-256 round constants (FIPS 180-4 §4.2.2, written in decimal). -/
def K256 : List Nat :=
  [1116352408, 1899447441, 3049323471, 3921009573,
   961987163, 1508970993, 2453635748, 2870763221,
   3624381080, 310598401, 607225278, 1426881987,
   1925078388, 2162078206, 2614888103, 3248222580,
   3835390401, 4022224774, 264347078, 604807628,
   770255983, 1249150122, 1555081692, 1996064986,
   2554220882, 2821834349, 2952996808, 3210313671,
   3336571891, 3584528711, 113926993, 338241895,
   666307205, 773529912, 1294757372, 1396182291,
   1695183700, 1986661051, 2177026350, 2456956037,
   2730485921, 2820302411, 3259730800, 3345764771,
   3516065817, 3600352804, 4094571909, 275423344,
   430227734, 506948616, 659060556, 883997877,
   958139571, 1322822218, 1537002063, 1747873779,
   1955562222, 2024104815, 2227730452, 2361852424,
   2428436474, 2756734187, 3204031479, 3329325298]

/-- The SHA-256 initial hash state (in decimal). -/
def H256 : List Nat :=
  [1779033703, 3144134277, 1013904242, 2773480762,
   1359893119, 2600822924, 528734635, 1541459225]

/-- SHA-256 padding: append `0x80`, zero bytes to 56 mod 64, then the 64-bit
big-endian bit length. -/
def padMsg (msg : List Nat) : List Nat :=
  let bitLen := 8 * msg.length
  let padZeros := (119 - msg.length % 64) % 64
  msg ++ [0x80] ++ List.replicate padZeros 0 ++
    (List.range 8).map (fun i => (bitLen >>> (8 * (7 - i))) % 256)

/-- Group bytes into big-endian 32-bit words. -/
def bytesToWords : List Nat → List Nat
  | b0 :: b1 :: b2 :: b3 :: rest =>
      ((b0 <<< 24) ||| (b1 <<< 16) ||| (b2 <<< 8) ||| b3) :: bytesToWords rest
  | _ => []

/-- Extend a (reversed) message schedule by `n` further words; the head of the
accumulator is the most recent word. -/
def extendSched : Nat → List Nat → List Nat
  | 0, acc => acc
  | n + 1, acc =>
      let w := (smallSigma1 (acc.getD 1 0) + acc.getD 6 0 +
                smallSigma0 (acc.getD 14 0) + acc.getD 15 0) % 4294967296
      extendSched n (w :: acc)

/-- One SHA-256 round on the eight-word working state. -/
def compressStep (st : List Nat) (kw : Nat × Nat) : List Nat :=
  match st with
  | [a, b, c, d, e, f, g, h] =>
      let t1 := (h + bigSigma1 e + chFn e f g + kw.1 + kw.2) % 4294967296
      let t2 := (bigSigma0 a + majFn a b c) % 4294967296
      [(t1 + t2) % 4294967296, a, b, c, (d + t1) % 4294967296, e, f, g]
  | _ => st

/-- Compress one 16-word block into the hash state. -/
def compress (hs block : List Nat) : List Nat :=
  let W := (extendSched 48 block.reverse).reverse
  let st := (K256.zip W).foldl compressStep hs
  (hs.zip st).map (fun p => (p.1 + p.2) % 4294967296)

/-- Fold the blocks of a padded message (given as words) into the hash state;
`fuel` is the number of 16-word blocks. -/
def sha256Blocks : Nat → List Nat → List Nat → List Nat
  | 0, _, hs => hs
  | n + 1, ws, hs => sha256Blocks n (ws.drop 16) (compress hs (ws.take 16))

/-- SHA-256 of a byte list, returned as the big-endian 256-bit integer
(`int(hashlib.sha256(msg).hexdigest(), 16)`). -/
def sha256Nat (msg : List Nat) : Nat :=
  let ws := bytesToWords (padMsg msg)
  (sha256Blocks (ws.length / 16) ws H256).foldl
    (fun acc w => acc * 4294967296 + w) 0

/-! ## Python string helpers -/

/-- The UTF-8 encoding of one character (`str.encode("utf-8")`, per char). -/
def utf8Char (c : Char) : List Nat :=
  let n := c.toNat
  if n < 0x80 then [n]
  else if n < 0x800 then
    [0xC0 ||| (n >>> 6), 0x80 ||| (n &&& 0x3F)]
  else if n < 0x10000 then
    [0xE0 ||| (n >>> 12), 0x80 ||| ((n >>> 6) &&& 0x3F), 0x80 ||| (n &&& 0x3F)]
  else
    [0xF0 ||| (n >>> 18), 0x80 ||| ((n >>> 12) &&& 0x3F),
     0x80 ||| ((n >>> 6) &&& 0x3F), 0x80 ||| (n &&& 0x3F)]

/-- UTF-8 bytes of a string (`s.encode("utf-8")`). -/
def utf8 (s : String) : List Nat := (s.data.map utf8Char).flatten

/-- ASCII lower-casing of one character (model of `str.lower`). -/
def pyLowerChar (c : Char) : Char :=
  if 'A' ≤ c ∧ c ≤ 'Z' then Char.ofNat (c.toNat + 32) else c

/-- ASCII upper-casing of one character. -/
def pyUpperChar (c : Char) : Char :=
  if 'a' ≤ c ∧ c ≤ 'z' then Char.ofNat (c.toNat - 32) else c

/-- `str.lower()` (ASCII model). -/
def pyLower (s : String) : String := String.mk (s.data.map pyLowerChar)

/-- A whitespace character in the sense of `str.strip()` / `str.split()`. -/
def isPySpace (c : Char) : Bool :=
  c = ' ' ∨ c = '\t' ∨ c = '\n' ∨ c = '\r' ∨ c.toNat = 11 ∨ c.toNat = 12

/-- `str.strip()`. -/
def pyStrip (s : String) : String :=
  String.mk (((s.data.dropWhile isPySpace).reverse.dropWhile isPySpace).reverse)

/-- `str.split()` helper on characters. -/
def splitWsAux : List Char → List Char → List String
  | [], cur => if cur.isEmpty then [] else [String.mk cur.reverse]
  | c :: rest, cur =>
      if isPySpace c then
        if cur.isEmpty then splitWsAux rest []
        else String.mk cur.reverse :: splitWsAux rest []
      else splitWsAux rest (c :: cur)

/-- `str.split()` with no argument: split on whitespace runs, no empties. -/
def pySplit (s : String) : List String := splitWsAux s.data []

/-- `str.title()` (ASCII model): a letter is upper-cased after a non-letter
and lower-cased after a letter. -/
def titleAux : List Char → Bool → List Char
  | [], _ => []
  | c :: rest, prevAlpha =>
      let isAlpha := ('a' ≤ c ∧ c ≤ 'z') ∨ ('A' ≤ c ∧ c ≤ 'Z')
      (if isAlpha then (if prevAlpha then pyLowerChar c else pyUpperChar c) else c)
        :: titleAux rest isAlpha

def pyTitle (s : String) : String := String.mk (titleAux s.data false)

/-! ## Seed derivation (`seed_from`, `rng_for`) -/

/-- `seed_from` (lines 81–83): SHA-256 of the normalized
`"<name>::<timeline>"` key, reduced modulo `2 ^ 32 - 1`. -/
def seed_from (name : String) (timeline : String := "prime") : Nat :=
  let key := utf8 (pyLower (pyStrip name) ++ "::" ++ pyLower (pyStrip timeline))
  sha256Nat key % (2 ^ 32 - 1)

/-- The integer seed of the `random.Random` built by `rng_for`
(lines 85–88): the base seed and the salt are rehashed unconditionally,
even when the salt is the empty string. -/
def rng_for_seed (name : String) (timeline : String := "prime") (salt : String := "") : Nat :=
  let base := seed_from name timeline
  sha256Nat (utf8 (toString base ++ ":" ++ salt)) % (2 ^ 32 - 1)

/-- Modelled from the spec, §4.1 (seed derivation): the same base seed, but
the rehash step is applied only "if a salt is supplied"; with no salt the
final seed is the base seed itself. -/
def seedSpec (name : String) (timeline : String := "prime") (salt : String := "") : Nat :=
  let base := seed_from name timeline
  if salt = "" then base
  else sha256Nat (utf8 (toString base ++ ":" ++ salt)) % (2 ^ 32 - 1)

/-- Sanity check of the SHA-256 embedding against the standard test vector
for `"abc"`. -/
theorem sha256_abc :
    sha256Nat (utf8 "abc") =
      0xba7816bf8f01cfea414140de5dae2223b00361a396177a9cb410ff61f20015ad := by
  decide

/-- Sanity check of padding across the one-block boundary: 64 bytes `a`. -/
theorem sha256_64a :
    sha256Nat (List.replicate 64 97) =
      0xffe054fe7ae0cb6dc65c3af9b61d5209f439851db43d0ba5997337df154668eb := by
  decide

/-- Sanity check of the seed derivation on the spec's end-to-end example
(name `"Ada"`, timeline `"prime"`), against the reference implementation. -/
theorem seed_from_Ada : seed_from "Ada" "prime" = 755270771 := by decide

/-! ## Data model: trait items and content tables -/

/-- A trait-item dict.  Keys that some items lack are `Option` fields; a
`dict.get(k, default)` read becomes `Option.getD`.  `id` and `weight` default
to `""` and `0`, so the empty dict `{}` is the structure with every field at
its default. -/
structure Item where
  id : String := ""
  weight : Int := 0
  prestige : Option Int := none
  risk : Option Int := none
  level : Option Int := none
  tags : List String := []
  label : Option String := none
  impact : Option String := none
  price : Option String := none
  sustainability : Option Int := none
  space : Option String := none
  deriving DecidableEq, Repr

/-- The empty dict `{}`, returned by `weighted_choice` on an empty list. -/
def Item.empty : Item := {}

/-- Python truthiness of an item dict: `{}` is falsy, every non-empty dict is
truthy.  (The only dicts the program tests for truth are full trait items and
`{}`.) -/
def Item.truthy (it : Item) : Bool := it ≠ Item.empty

/-- The five domains, in the order of the `DOMAINS` list. -/
inductive Domain where
  | career | car | house | relationship | fame
  deriving DecidableEq, Repr

/-- `TRAITS["career"]`. -/
def TRAITS_career : List Item :=
  [{ id := "ai_researcher", weight := 9, prestige := some 9, risk := some 5,
     tags := ["tech", "research"], label := some "AI Researcher",
     impact := some "breakthroughs in human–AI collaboration" },
   { id := "creative_director", weight := 7, prestige := some 7, risk := some 4,
     tags := ["creative"], label := some "Creative Director",
     impact := some "genre-bending campaigns and IP worlds" },
   { id := "founder", weight := 8, prestige := some 8, risk := some 9,
     tags := ["business", "risk"], label := some "Startup Founder",
     impact := some "a profitable mission-driven company" },
   { id := "product_lead", weight := 8, prestige := some 8, risk := some 6,
     tags := ["tech", "product"], label := some "Product Lead",
     impact := some "platforms used by millions" },
   { id := "cinematic_vfx", weight := 6, prestige := some 7, risk := some 6,
     tags := ["creative", "film"], label := some "Cinematic VFX Director",
     impact := some "award-winning visuals" },
   { id := "wildcard_nomad", weight := 3, prestige := some 5, risk := some 7,
     tags := ["travel", "gig"], label := some "Digital Nomad",
     impact := some "projects across continents" },
   { id := "data_ethicist", weight := 5, prestige := some 7, risk := some 3,
     tags := ["tech", "policy"], label := some "Data Ethicist",
     impact := some "safer, fairer AI systems" },
   { id := "edu_creator", weight := 6, prestige := some 6, risk := some 5,
     tags := ["creator", "edu"], label := some "Edu Creator",
     impact := some "teaching millions online" }]

/-- `TRAITS["car"]`. -/
def TRAITS_car : List Item :=
  [{ id := "solid_ev", weight := 10, price := some "mid", sustainability := some 8,
     tags := ["ev"], label := some "reliable EV" },
   { id := "ultra_lux_ev", weight := 3, price := some "ultra", sustainability := some 8,
     tags := ["ev", "lux"], label := some "ultra-luxury EV" },
   { id := "retro_mod", weight := 4, price := some "mid_low", sustainability := some 5,
     tags := ["style"], label := some "retro-modern ride" },
   { id := "no_car_city", weight := 6, price := some "none", sustainability := some 10,
     tags := ["urban"], label := some "no personal car (city mobility)" },
   { id := "smart_scooter", weight := 5, price := some "low", sustainability := some 9,
     tags := ["urban", "ev"], label := some "smart e-scooter + transit" }]

/-- `TRAITS["house"]`. -/
def TRAITS_house : List Item :=
  [{ id := "smart_apartment", weight := 10, price := some "mid", space := some "mid",
     tags := ["urban", "smart"], label := some "smart apartment" },
   { id := "skyline_penthouse", weight := 2, price := some "ultra", space := some "mid",
     tags := ["lux"], label := some "skyline penthouse" },
   { id := "villa_coastal", weight := 3, price := some "high", space := some "high",
     tags := ["coast"], label := some "coastal villa" },
   { id := "tiny_home", weight := 4, price := some "low", space := some "low",
     tags := ["minimal"], label := some "tiny home" },
   { id := "studio_loft", weight := 6, price := some "mid_low", space := some "mid_low",
     tags := ["urban", "creative"], label := some "studio loft" }]

/-- `TRAITS["relationship"]`. -/
def TRAITS_relationship : List Item :=
  [{ id := "married_kids", weight := 7, label := some "married with kids" },
   { id := "married_no_kids", weight := 6, label := some "married, no kids" },
   { id := "partnered", weight := 6, label := some "partnered" },
   { id := "solo", weight := 5, label := some "solo" },
   { id := "global_long_distance", weight := 2, label := some "global long-distance" }]

/-- `TRAITS["fame"]`. -/
def TRAITS_fame : List Item :=
  [{ id := "local_known", weight := 8, level := some 3, label := some "locally known" },
   { id := "industry_respected", weight := 8, level := some 5, label := some "industry-respected" },
   { id := "viral_creator", weight := 4, level := some 7, label := some "viral creator" },
   { id := "global_icon", weight := 1, level := some 10, label := some "global icon" },
   { id := "low_profile", weight := 6, level := some 1, label := some "low profile" }]

/-- The `TRAITS` table, per domain. -/
def TRAITS : Domain → List Item
  | .career => TRAITS_career
  | .car => TRAITS_car
  | .house => TRAITS_house
  | .relationship => TRAITS_relationship
  | .fame => TRAITS_fame

/-- `MICRO_FACTS.get(t, [])`: flavor facts per tag (absent tags give `[]`). -/
def MICRO_FACTS : String → List String
  | "tech" => ["holds 12 patents", "keynoted at a global dev summit",
               "open-sourced a popular toolkit"]
  | "research" => ["published in top journals", "mentored young scholars",
                   "led a cross-lab consortium"]
  | "creative" => ["curated a traveling exhibition",
                   "designed an award-winning brand system", "scored a streaming hit"]
  | "film" => ["won a VFX guild award", "pioneered real-time virtual production",
               "helmed a festival favorite"]
  | "business" => ["backed climate-positive suppliers", "bootstrapped to profitability",
                   "exited a venture gracefully"]
  | "creator" => ["hit 100M monthly views", "launched a community fund",
                  "toured three continents"]
  | "urban" => ["bikes on car-free weekdays", "hosts maker nights",
                "chairs the neighborhood council"]
  | "minimal" => ["lives with 42 carefully chosen items", "donates yearly to libraries",
                  "keeps a zero-waste kitchen"]
  | "coast" => ["surfs at sunrise", "restores coral reefs", "hosts beach cleanups"]
  | "smart" => ["home runs on local solar", "uses edge-AI for safety",
                "digital twin optimizes energy"]
  | _ => []

/-- `DOMAINS`. -/
def DOMAINS : List Domain := [.career, .car, .house, .relationship, .fame]

/-- The string form of a domain (as used in salts such as `"reroll:career"`). -/
def Domain.str : Domain → String
  | .career => "career"
  | .car => "car"
  | .house => "house"
  | .relationship => "relationship"
  | .fame => "fame"

/-! ## The deterministic random source

`random.Random(seed)` is abstracted, as the design notes direct, behind a
narrow interface: a `Backend` maps (seed, step index) to the result of the
next `uniform(0, total)` draw or `shuffle` call, and an `Rng` is a back end
plus a seed and the current step counter.  All sampling theorems hold for
every back end; only the seed derivation is concrete. -/

structure Backend where
  uniform : Nat → Nat → ℚ → ℚ
  shuffle : Nat → Nat → List String → List String

structure Rng where
  backend : Backend
  seed : Nat
  k : Nat := 0

/-- `rng.uniform(0, total)`: one draw, advancing the step counter. -/
def Rng.uniformD (g : Rng) (total : ℚ) : ℚ × Rng :=
  (g.backend.uniform g.seed g.k total, { g with k := g.k + 1 })

/-- `rng.shuffle(xs)` (functionally: the shuffled list), advancing the step
counter. -/
def Rng.shuffleD (g : Rng) (xs : List String) : List String × Rng :=
  (g.backend.shuffle g.seed g.k xs, { g with k := g.k + 1 })

/-- `rng_for` (lines 85–88): a deterministic random source seeded from the
salted SHA-256 derivation. -/
def rng_for (B : Backend) (name : String) (timeline : String := "prime")
    (salt : String := "") : Rng :=
  { backend := B, seed := rng_for_seed name timeline salt, k := 0 }

/-! ## The weighted sampler (`weighted_choice`, lines 90–98) -/

/-- The clamped weight `max(0.0, float(i.get("weight", 0)))`.  Every weight in
this program is an integer, so the total and the cumulative sum are
integer-valued; only the draw point itself can be fractional. -/
def wclamp (it : Item) : Int := max 0 it.weight

/-- The scan loop of `weighted_choice`: accumulate clamped weights and return
the first item whose cumulative weight reaches the draw point. -/
def wcScan (pick : ℚ) : List Item → Int → Option Item
  | [], _ => none
  | it :: rest, c =>
      let c' := c + wclamp it
      if pick ≤ (c' : ℚ) then some it else wcScan pick rest c'

/-- `weighted_choice`: draw `uniform(0, total)` when the total clamped weight
is positive (otherwise use draw point `0` without consuming the rng), scan the
cumulative sum, and fall back to `items[-1] if items else {}`. -/
def weighted_choice (g : Rng) (items : List Item) : Item × Rng :=
  let total : Int := (items.map wclamp).sum
  let pickG := if 0 < total then g.uniformD (total : ℚ) else ((0 : ℚ), g)
  match wcScan pickG.1 items 0 with
  | some it => (it, pickG.2)
  | none => (items.getLastD Item.empty, pickG.2)

/-- `fame_meter` (lines 100–102): clamp the level to `[0, 10]` and render a
10-slot filled/empty star bar. -/
def fame_meter (level : Int) : String :=
  let lv := (max 0 (min level 10)).toNat
  String.mk (List.replicate lv '★' ++ List.replicate (10 - lv) '☆')

/-! ## Rule engine (`apply_rules`, lines 120–181) -/

/-- A pick-set: one item per domain plus the rule trace. -/
structure Picks where
  career : Item
  car : Item
  house : Item
  relationship : Item
  fame : Item
  trace : List String := []
  deriving DecidableEq, Repr

/-- `getattr(p, d)` for a domain name. -/
def Picks.get (p : Picks) : Domain → Item
  | .career => p.career
  | .car => p.car
  | .house => p.house
  | .relationship => p.relationship
  | .fame => p.fame

/-- Rule 1, boost branch: `it["weight"] += 3` on the ultra-luxury EV. -/
def ultraBoost (it : Item) : Item :=
  if it.id = "ultra_lux_ev" then { it with weight := it.weight + 3 } else it

/-- Rule 1, damp branch: `it["weight"] = max(1, it["weight"] - 2)`. -/
def ultraDamp (it : Item) : Item :=
  if it.id = "ultra_lux_ev" then { it with weight := max 1 (it.weight - 2) } else it

/-- The copied-and-adjusted car pool after rule 1 (exactly one branch). -/
def carRule1Pool (prestige fameLevel : Int) : List Item :=
  if 8 ≤ prestige ∧ 7 ≤ fameLevel then TRAITS_car.map ultraBoost
  else TRAITS_car.map ultraDamp

/-- The trace entry appended by rule 1 (exactly one branch). -/
def carRule1Msg (prestige fameLevel : Int) : String :=
  if 8 ≤ prestige ∧ 7 ≤ fameLevel then "car: luxury boost (prestige ≥8 & fame ≥7)"
  else "car: luxury damped (prestige/fame below threshold)"

/-- Rule 2: `+2` on the city-mobility cars. -/
def urbanCarBoost (it : Item) : Item :=
  if it.id = "no_car_city" ∨ it.id = "smart_scooter"
  then { it with weight := it.weight + 2 } else it

/-- House compact-living: `+3` on tiny home and studio loft. -/
def compactBoost (it : Item) : Item :=
  if it.id = "tiny_home" ∨ it.id = "studio_loft"
  then { it with weight := it.weight + 3 } else it

/-- House urban access: `+2` on urban-tagged houses. -/
def urbanHouseBoost (it : Item) : Item :=
  if "urban" ∈ it.tags then { it with weight := it.weight + 2 } else it

/-- House penthouse: `+2` on the skyline penthouse. -/
def penthouseBoost (it : Item) : Item :=
  if it.id = "skyline_penthouse" then { it with weight := it.weight + 2 } else it

/-- Fame creator/founder nudge: `+1` on viral creator and industry-respected. -/
def fameNudgeBoost (it : Item) : Item :=
  if it.id = "viral_creator" ∨ it.id = "industry_respected"
  then { it with weight := it.weight + 1 } else it

/-- `int(p.career.get("prestige", 5))`. -/
def prestigeOf (p : Picks) : Int := p.career.prestige.getD 5

/-- `int(p.fame.get("level", 1))`. -/
def fameLevelOf (p : Picks) : Int := p.fame.level.getD 1

/-- `("urban" in p.house.get("tags", [])) or ("tech" in p.career.get("tags", []))`. -/
def isUrbanish (p : Picks) : Prop :=
  "urban" ∈ p.house.tags ∨ "tech" ∈ p.career.tags

instance (p : Picks) : Decidable (isUrbanish p) := by unfold isUrbanish; infer_instance

/-- The car pool after rules 1 and 2 (a fresh copy of `TRAITS["car"]`,
adjusted). -/
def carPool2Of (p : Picks) : List Item :=
  if isUrbanish p then (carRule1Pool (prestigeOf p) (fameLevelOf p)).map urbanCarBoost
  else carRule1Pool (prestigeOf p) (fameLevelOf p)

/-- `p.car = weighted_choice(rng, car_pool)` — the re-picked car and the rng
state after it. -/
def carPickOf (p : Picks) (g : Rng) : Item × Rng :=
  weighted_choice g (carPool2Of p)

/-- The house pool after the compact-living, urban-access (which reads the
re-picked car id) and penthouse nudges. -/
def housePool3Of (p : Picks) (carId : String) : List Item :=
  let housePool1 :=
    if p.relationship.id = "solo" then TRAITS_house.map compactBoost else TRAITS_house
  let housePool2 :=
    if carId = "no_car_city" ∨ carId = "smart_scooter"
    then housePool1.map urbanHouseBoost else housePool1
  if 8 ≤ prestigeOf p ∧ 7 ≤ fameLevelOf p then housePool2.map penthouseBoost
  else housePool2

/-- `p.house = weighted_choice(rng, house_pool)`. -/
def housePickOf (p : Picks) (g : Rng) : Item × Rng :=
  weighted_choice (carPickOf p g).2 (housePool3Of p (carPickOf p g).1.id)

/-- `"creator" in p.career.get("tags", []) or p.career["id"] in
("founder", "cinematic_vfx")`. -/
def creatorish (p : Picks) : Prop :=
  "creator" ∈ p.career.tags ∨ p.career.id = "founder" ∨ p.career.id = "cinematic_vfx"

instance (p : Picks) : Decidable (creatorish p) := by unfold creatorish; infer_instance

/-- The fame pick: re-sampled from the nudged pool only when the
creator/founder rule fires, otherwise left as it was. -/
def famePickOf (p : Picks) (g : Rng) : Item × Rng :=
  if creatorish p then weighted_choice (housePickOf p g).2 (TRAITS_fame.map fameNudgeBoost)
  else (p.fame, (housePickOf p g).2)

/-- The trace entries the rules after rule 1 append, in the source's order. -/
def rulesTraceTail (p : Picks) (g : Rng) : List String :=
  (if isUrbanish p then ["car: urban mobility boost"] else [])
    ++ (if p.relationship.id = "solo" then ["house: compact-living boost (solo)"] else [])
    ++ (if (carPickOf p g).1.id = "no_car_city" ∨ (carPickOf p g).1.id = "smart_scooter"
        then ["house: urban access boost (city mobility)"] else [])
    ++ (if 8 ≤ prestigeOf p ∧ 7 ≤ fameLevelOf p
        then ["house: penthouse boost (prestige & fame)"] else [])
    ++ (if creatorish p then ["fame: creator/founder nudge"] else [])

/-- `apply_rules`: adjust copies of the car/house/fame pools from the
cross-domain conditions, re-sample those domains, and append a trace entry
per rule that fires, in the source's order.  (The code also reads `risk`;
no rule uses it.)  Every condition is a pure function of values fixed
before any trace entry is appended, so assembling the trace from the same
conditions yields the same list the Python code accumulates. -/
def apply_rules (p : Picks) (g : Rng) : Picks × Rng :=
  ({ p with
      car := (carPickOf p g).1
      house := (housePickOf p g).1
      fame := (famePickOf p g).1
      trace := p.trace ++ [carRule1Msg (prestigeOf p) (fameLevelOf p)]
                 ++ rulesTraceTail p g },
   (famePickOf p g).2)

/-! ## Prediction pipeline (`pick_all`, `reroll_section`, `monte_carlo`) -/

/-- `lock.get(d) or weighted_choice(rng, pool)`: a truthy locked dict is used
as-is (no draw consumed); a missing or falsy one falls through to sampling. -/
def lockOr (o : Option Item) (g : Rng) (pool : List Item) : Item × Rng :=
  match o with
  | some it => if it.truthy then (it, g) else weighted_choice g pool
  | none => weighted_choice g pool

/-- `pick_all` (lines 187–198): derive the rng, sample each domain in the
source order (career, fame, relationship, car, house) honoring locks, then
apply the rule engine. -/
def pick_all (B : Backend) (name : String) (timeline : String)
    (lock : Domain → Option Item := fun _ => none) (salt : String := "") : Picks :=
  let g := rng_for B name timeline salt
  let (career, g) := lockOr (lock .career) g TRAITS_career
  let (fame, g) := lockOr (lock .fame) g TRAITS_fame
  let (relationship, g) := lockOr (lock .relationship) g TRAITS_relationship
  let (car, g) := lockOr (lock .car) g TRAITS_car
  let (house, g) := lockOr (lock .house) g TRAITS_house
  (apply_rules ⟨career, car, house, relationship, fame, []⟩ g).1

/-- `reroll_section` (lines 302–305): lock every domain but the target and
re-run the pipeline with salt `"reroll:<domain>"`. -/
def reroll_section (B : Backend) (name : String) (timeline : String)
    (domain : Domain) (base : Picks) : Picks :=
  pick_all B name timeline
    (fun d => if d = domain then none else some (base.get d))
    ("reroll:" ++ domain.str)

/-- One domain's tally: an insertion-ordered association list, as a Python
dict of counts. -/
def bump : List (String × Nat) → String → List (String × Nat)
  | [], key => [(key, 1)]
  | (a, c) :: rest, key =>
      if a = key then (a, c + 1) :: rest else (a, c) :: bump rest key

/-- The `counts` structure of `monte_carlo`: one tally per domain. -/
structure Counts where
  career : List (String × Nat) := []
  car : List (String × Nat) := []
  house : List (String × Nat) := []
  relationship : List (String × Nat) := []
  fame : List (String × Nat) := []
  deriving DecidableEq, Repr

def Counts.get (c : Counts) : Domain → List (String × Nat)
  | .career => c.career
  | .car => c.car
  | .house => c.house
  | .relationship => c.relationship
  | .fame => c.fame

/-- One trial's tally update: `counts[d][p.d["id"]] += 1` for every domain. -/
def tallyPicks (c : Counts) (p : Picks) : Counts :=
  { career := bump c.career p.career.id
    car := bump c.car p.car.id
    house := bump c.house p.house.id
    relationship := bump c.relationship p.relationship.id
    fame := bump c.fame p.fame.id }

/-- `monte_carlo` (lines 236–244): `n` independent trials with salts
`"mc:0" … "mc:n-1"`, tallied per domain. -/
def monte_carlo (B : Backend) (name : String) (timeline : String) (n : Nat) : Counts :=
  (List.range n).foldl
    (fun c i => tallyPicks c (pick_all B name timeline (fun _ => none) ("mc:" ++ toString i)))
    {}

/-! ## Narrative renderer (`short_label`, `microfacts_for`, `narrative`) -/

/-- `short_label`: `d.get("label") or d.get("id")` (an empty label is falsy). -/
def short_label (d : Item) : String :=
  match d.label with
  | some l => if l = "" then d.id else l
  | none => d.id

/-- `microfacts_for` (lines 203–209).  The Python code iterates the SET
`set(career.tags) | set(house.tags) | set(car.tags)`; the iteration order of
a set of strings depends on per-process hash randomization, so it is passed
here as the explicit parameter `tagOrder`.  A run of the Python program
corresponds to some `tagOrder` that enumerates that union without
duplicates. -/
def microfacts_for (tagOrder : List String) (g : Rng) (k : Nat := 2) :
    List String × Rng :=
  let options := (tagOrder.map MICRO_FACTS).flatten
  let (shuffled, g') := g.shuffleD options
  (shuffled.take k, g')

/-- The union of tags whose enumeration order hash randomization scrambles. -/
def tagPool (p : Picks) : List String :=
  p.career.tags ++ p.house.tags ++ p.car.tags

/-- `tagOrder` is a legal iteration order of `set(...) | set(...) | set(...)`:
no duplicates, and exactly the members of the union. -/
def IsTagOrder (p : Picks) (tagOrder : List String) : Prop :=
  tagOrder.Nodup ∧ ∀ t, t ∈ tagOrder ↔ t ∈ tagPool p

instance (p : Picks) (tagOrder : List String) : Decidable (IsTagOrder p tagOrder) :=
  decidable_of_iff
    (tagOrder.Nodup ∧ (∀ t ∈ tagOrder, t ∈ tagPool p) ∧ ∀ t ∈ tagPool p, t ∈ tagOrder)
    (by
      constructor
      · rintro ⟨h1, h2, h3⟩
        exact ⟨h1, fun t => ⟨fun ht => h2 t ht, fun ht => h3 t ht⟩⟩
      · rintro ⟨h1, h2⟩
        exact ⟨h1, fun t ht => (h2 t).1 ht, fun t ht => (h2 t).2 ht⟩)

/-- Greedy line fill (model of `textwrap.fill(s, width)`). -/
def greedyFill (width : Nat) : List String → String → List String
  | [], cur => if cur = "" then [] else [cur]
  | w :: ws, cur =>
      if cur = "" then greedyFill width ws w
      else if cur.length + 1 + w.length ≤ width then
        greedyFill width ws (cur ++ " " ++ w)
      else cur :: greedyFill width ws w

/-- `wrap` (lines 104–105): `textwrap.fill(s, width=84)`. -/
def wrap (s : String) (width : Nat := 84) : String :=
  String.intercalate "\n" (greedyFill width (pySplit s) "")

/-- `narrative` (lines 211–220), with the set-iteration order of the tag pool
made explicit as `tagOrder` (see `microfacts_for`). -/
def narrative (B : Backend) (tagOrder : List String) (name : String) (p : Picks)
    (timeline : String) : String :=
  let first :=
    if pyStrip name ≠ "" then pyTitle ((pySplit (pyStrip name)).headD "") else "You"
  let fameBar := fame_meter (p.fame.level.getD 1)
  let line1 := "By 2050, " ++ first ++ " is a " ++ short_label p.career ++
    " known for " ++ p.career.impact.getD "meaningful work" ++ "."
  let line2 := "They live in a " ++ short_label p.house ++ " and get around with " ++
    short_label p.car ++ "."
  let line3 := "Relationship status: " ++ p.relationship.label.getD "" ++
    ". Fame: " ++ p.fame.label.getD "" ++ " (" ++ fameBar ++ ")."
  let g := rng_for B name timeline "facts"
  let facts := (microfacts_for tagOrder g 2).1
  let line4 :=
    if facts ≠ [] then "Highlights: " ++ String.intercalate ", " facts ++ "." else ""
  String.intercalate "\n" [wrap line1, wrap line2, wrap line3, wrap line4]

/-! ## Heap-level embedding (dict identity and in-place mutation)

The pure embedding above cannot even express mutation of the shared
`TRAITS` tables, so the immutability contract is verified against a second
translation of the same source in which Python dict identity is explicit: a
`Heap` is a store of item cells, a pool is a list of cell addresses, the
`dict(x)` copies allocate fresh cells, and `it["weight"] += 3` writes a
cell in place.  Had `apply_rules` adjusted `TRAITS["car"]` directly instead
of `[dict(x) for x in TRAITS["car"]]`, the writes would hit the table
region and the frame theorem below would be false. -/

abbrev Heap := List Item

/-- Dereference a cell. -/
def hread (hp : Heap) (a : Nat) : Item := hp.getD a Item.empty

/-- In-place update of a cell. -/
def hwrite (hp : Heap) (a : Nat) (it : Item) : Heap := hp.set a it

/-- Allocate a fresh cell, returning its address. -/
def halloc (hp : Heap) (it : Item) : Heap × Nat := (hp ++ [it], hp.length)

/-- `[dict(x) for x in pool]`: allocate a fresh copy of every cell of the
pool, returning the copies' addresses in order. -/
def copyPool (hp : Heap) : List Nat → Heap × List Nat
  | [] => (hp, [])
  | a :: rest =>
      let ha := halloc hp (hread hp a)
      let hrest := copyPool ha.1 rest
      (hrest.1, ha.2 :: hrest.2)

/-- `for it in pool: …` — apply one rule's conditional weight update to every
cell of a pool, in place.  (`f` is the rule body, identity off its targets.) -/
def adjustPool (f : Item → Item) : Heap → List Nat → Heap
  | hp, [] => hp
  | hp, a :: rest => adjustPool f (hwrite hp a (f (hread hp a))) rest

/-- `weighted_choice` over a pool of cell addresses: reads weights from the
heap, never writes; `none` plays the role of the `{}` fallback. -/
def wcScanH (hp : Heap) (pick : ℚ) : List Nat → Int → Option Nat
  | [], _ => none
  | a :: rest, c =>
      let c' := c + wclamp (hread hp a)
      if pick ≤ (c' : ℚ) then some a else wcScanH hp pick rest c'

def weighted_choiceH (g : Rng) (hp : Heap) (addrs : List Nat) : Option Nat × Rng :=
  let total : Int := (addrs.map (fun a => wclamp (hread hp a))).sum
  let pickG := if 0 < total then g.uniformD (total : ℚ) else ((0 : ℚ), g)
  match wcScanH hp pickG.1 addrs 0 with
  | some a => (some a, pickG.2)
  | none => (addrs.getLast?, pickG.2)

/-- The global store holding the five `TRAITS` tables, cells 0–27. -/
def heapTRAITS : Heap :=
  TRAITS_career ++ TRAITS_car ++ TRAITS_house ++ TRAITS_relationship ++ TRAITS_fame

/-- The table region: each domain's list of cell addresses. -/
def tableAddrs : Domain → List Nat
  | .career => List.range 8
  | .car => (List.range 5).map (· + 8)
  | .house => (List.range 5).map (· + 13)
  | .relationship => (List.range 5).map (· + 18)
  | .fame => (List.range 5).map (· + 23)

/-- A pick-set of dict references plus the trace. -/
structure PicksH where
  career : Option Nat
  car : Option Nat
  house : Option Nat
  relationship : Option Nat
  fame : Option Nat
  trace : List String := []

def PicksH.get (p : PicksH) : Domain → Option Nat
  | .career => p.career
  | .car => p.car
  | .house => p.house
  | .relationship => p.relationship
  | .fame => p.fame

/-- Dereference an optional reference (`none` is the `{}` fallback). -/
def hreadO (hp : Heap) : Option Nat → Item
  | some a => hread hp a
  | none => Item.empty

/-- The car phase: `car_pool = [dict(x) for x in TRAITS["car"]]`, then the
rule-1 branch and the rule-2 urban nudge mutate the copies in place.
Returns the heap after the writes and the pool's cell addresses. -/
def carPoolH (hp : Heap) (p : PicksH) : Heap × List Nat :=
  let prestige : Int := (hreadO hp p.career).prestige.getD 5
  let fameLevel : Int := (hreadO hp p.fame).level.getD 1
  let c1 := copyPool hp (tableAddrs .car)
  let h2 :=
    if 8 ≤ prestige ∧ 7 ≤ fameLevel then adjustPool ultraBoost c1.1 c1.2
    else adjustPool ultraDamp c1.1 c1.2
  let urbanish := "urban" ∈ (hreadO hp p.house).tags ∨ "tech" ∈ (hreadO hp p.career).tags
  (if urbanish then adjustPool urbanCarBoost h2 c1.2 else h2, c1.2)

/-- The house phase: `house_pool = [dict(x) for x in TRAITS["house"]]` copied
out of the heap left by the car phase, then the three nudges in place.
`hp` is the heap at function entry (the conditions read the original picks
there), `carRef` the re-picked car reference.  Also returns the city-mobility
condition, which the trace needs. -/
def housePoolH (hp : Heap) (p : PicksH) (carRef : Option Nat) (hcar : Heap) :
    Heap × List Nat × Bool :=
  let prestige : Int := (hreadO hp p.career).prestige.getD 5
  let fameLevel : Int := (hreadO hp p.fame).level.getD 1
  let relId := (hreadO hp p.relationship).id
  let c2 := copyPool hcar (tableAddrs .house)
  let h5 := if relId = "solo" then adjustPool compactBoost c2.1 c2.2 else c2.1
  let cityCar : Bool :=
    decide ((hreadO h5 carRef).id = "no_car_city" ∨ (hreadO h5 carRef).id = "smart_scooter")
  let h6 := if cityCar then adjustPool urbanHouseBoost h5 c2.2 else h5
  let h7 :=
    if 8 ≤ prestige ∧ 7 ≤ fameLevel then adjustPool penthouseBoost h6 c2.2 else h6
  (h7, c2.2, cityCar)

/-- The fame phase: `fame_pool = [dict(x) for x in TRAITS["fame"]]` (copied
unconditionally, as in the source), nudged in place only when the
creator/founder rule fires. -/
def famePoolH (hp7 : Heap) (creator : Bool) : Heap × List Nat :=
  let c3 := copyPool hp7 (tableAddrs .fame)
  (if creator then adjustPool fameNudgeBoost c3.1 c3.2 else c3.1, c3.2)

/-- `apply_rules` at the heap level: copy each pool out of the table region,
mutate the copies in place, re-sample from the copies. -/
def apply_rulesH (hp : Heap) (p : PicksH) (g : Rng) : Heap × PicksH × Rng :=
  let prestige : Int := (hreadO hp p.career).prestige.getD 5
  let fameLevel : Int := (hreadO hp p.fame).level.getD 1
  let relId := (hreadO hp p.relationship).id
  let urbanish := "urban" ∈ (hreadO hp p.house).tags ∨ "tech" ∈ (hreadO hp p.career).tags
  let cp := carPoolH hp p
  let carG := weighted_choiceH g cp.1 cp.2
  let hoP := housePoolH hp p carG.1 cp.1
  let houseG := weighted_choiceH carG.2 hoP.1 hoP.2.1
  let creatorish : Bool := decide ("creator" ∈ (hreadO hp p.career).tags ∨
    (hreadO hp p.career).id = "founder" ∨ (hreadO hp p.career).id = "cinematic_vfx")
  let fp := famePoolH hoP.1 creatorish
  let fameG :=
    if creatorish then weighted_choiceH houseG.2 fp.1 fp.2 else (p.fame, houseG.2)
  let trace :=
    p.trace ++ [carRule1Msg prestige fameLevel]
      ++ (if urbanish then ["car: urban mobility boost"] else [])
      ++ (if relId = "solo" then ["house: compact-living boost (solo)"] else [])
      ++ (if hoP.2.2 then ["house: urban access boost (city mobility)"] else [])
      ++ (if 8 ≤ prestige ∧ 7 ≤ fameLevel then ["house: penthouse boost (prestige & fame)"] else [])
      ++ (if creatorish then ["fame: creator/founder nudge"] else [])
  (fp.1, { p with car := carG.1, house := houseG.1, fame := fameG.1, trace := trace }, fameG.2)

/-- `lock.get(d) or weighted_choice(...)` over references. -/
def lockOrH (o : Option Nat) (hp : Heap) (g : Rng) (addrs : List Nat) : Option Nat × Rng :=
  match o with
  | some a => if (hread hp a).truthy then (some a, g) else weighted_choiceH g hp addrs
  | none => weighted_choiceH g hp addrs

/-- `pick_all` at the heap level. -/
def pick_allH (hp : Heap) (B : Backend) (name timeline : String)
    (lock : Domain → Option Nat := fun _ => none) (salt : String := "") :
    Heap × PicksH :=
  let g := rng_for B name timeline salt
  let cG := lockOrH (lock .career) hp g (tableAddrs .career)
  let fG := lockOrH (lock .fame) hp cG.2 (tableAddrs .fame)
  let rG := lockOrH (lock .relationship) hp fG.2 (tableAddrs .relationship)
  let carG := lockOrH (lock .car) hp rG.2 (tableAddrs .car)
  let hG := lockOrH (lock .house) hp carG.2 (tableAddrs .house)
  let res := apply_rulesH hp ⟨cG.1, carG.1, hG.1, rG.1, fG.1, []⟩ hG.2
  (res.1, res.2.1)

/-- One Monte Carlo tally at the heap level. -/
def tallyPicksH (hp : Heap) (c : Counts) (p : PicksH) : Counts :=
  { career := bump c.career (hreadO hp p.career).id
    car := bump c.car (hreadO hp p.car).id
    house := bump c.house (hreadO hp p.house).id
    relationship := bump c.relationship (hreadO hp p.relationship).id
    fame := bump c.fame (hreadO hp p.fame).id }

/-- `monte_carlo` at the heap level: the heap threads through the trials. -/
def monte_carloH (hp : Heap) (B : Backend) (name timeline : String) (n : Nat) :
    Heap × Counts :=
  (List.range n).foldl
    (fun acc i =>
      let r := pick_allH acc.1 B name timeline (fun _ => none) ("mc:" ++ toString i)
      (r.1, tallyPicksH r.1 acc.2 r.2))
    (hp, {})

/-- `reroll_section` at the heap level. -/
def reroll_sectionH (hp : Heap) (B : Backend) (name timeline : String)
    (domain : Domain) (base : PicksH) : Heap × PicksH :=
  pick_allH hp B name timeline
    (fun d => if d = domain then none else base.get d)
    ("reroll:" ++ domain.str)

/-! ## Concrete instances used by witnesses and counterexamples -/

/-- A concrete random back end: every uniform draw is `0` and `shuffle`
leaves its argument in place. -/
def B0 : Backend := ⟨fun _ _ _ => 0, fun _ _ xs => xs⟩

/-- A concrete rng state over `B0`. -/
def g0 : Rng := { backend := B0, seed := 0, k := 0 }

/-- The pick-set the pipeline produces for `("Ada", "prime")` over `B0`. -/
def adaPicks : Picks := pick_all B0 "Ada" "prime" (fun _ => none) ""

/-- A concrete pick-set used to instantiate reroll theorems. -/
def witnessBase : Picks :=
  { career := { id := "founder", weight := 8, prestige := some 8, risk := some 9,
                tags := ["business", "risk"], label := some "Startup Founder",
                impact := some "a profitable mission-driven company" }
    car := { id := "solid_ev", weight := 10, price := some "mid",
             sustainability := some 8, tags := ["ev"], label := some "reliable EV" }
    house := { id := "tiny_home", weight := 4, price := some "low", space := some "low",
               tags := ["minimal"], label := some "tiny home" }
    relationship := { id := "solo", weight := 5, label := some "solo" }
    fame := { id := "local_known", weight := 8, level := some 3,
              label := some "locally known" }
    trace := [] }

/-- Two enumeration orders of the same tag set
`set(career.tags) | set(house.tags) | set(car.tags)` for `adaPicks`, as two
runs with different hash seeds may produce. -/
def ord1 : List String := ["tech", "research", "urban", "smart", "ev"]

def ord2 : List String := ["research", "tech", "urban", "smart", "ev"]

/-- Two items of weight 0, for the all-zero-weights witness. -/
def zeroItems : List Item := [{ id := "a", weight := 0 }, { id := "b", weight := 0 }]

/-! ## Supporting lemmas -/

theorem lockOr_truthy (it : Item) (g : Rng) (pool : List Item) (h : it ≠ Item.empty) :
    lockOr (some it) g pool = (it, g) := by
  simp [lockOr, Item.truthy, h]

theorem apply_rules_relationship (p : Picks) (g : Rng) :
    (apply_rules p g).1.relationship = p.relationship := rfl

theorem wcScan_mem (pick : ℚ) :
    ∀ (items : List Item) (c : Int) (it : Item), wcScan pick items c = some it → it ∈ items := by
  intro items
  induction items with
  | nil => intro c it h; simp [wcScan] at h
  | cons a l ih =>
      intro c it h
      rw [wcScan] at h
      by_cases hle : pick ≤ c + wclamp a
      · simp [hle] at h
        simp [h]
      · simp [hle] at h
        exact List.mem_cons_of_mem a (ih _ it h)

theorem getLastD_mem (d : Item) (l : List Item) (h : l ≠ []) :
    l.getLastD d ∈ l := by
  rw [List.getLastD_eq_getLast?, List.getLast?_eq_getLast l h]
  exact List.getLast_mem h

/-- One tally update adds exactly one to a domain's total count. -/
def sumCounts (l : List (String × Nat)) : Nat := (l.map Prod.snd).sum

theorem sumCounts_bump (l : List (String × Nat)) (key : String) :
    sumCounts (bump l key) = sumCounts l + 1 := by
  induction l with
  | nil => simp [bump, sumCounts]
  | cons a rest ih =>
      by_cases h : a.1 = key
      · simp [bump, h, sumCounts]
        omega
      · simp [bump, h, sumCounts] at ih ⊢
        omega

theorem tallyPicks_get (c : Counts) (p : Picks) (d : Domain) :
    (tallyPicks c p).get d = bump (c.get d) ((p.get d).id) := by
  cases d <;> rfl

theorem monte_carlo_foldl (B : Backend) (name timeline : String) (d : Domain) :
    ∀ (l : List Nat) (c : Counts),
      sumCounts ((l.foldl (fun c i =>
          tallyPicks c (pick_all B name timeline (fun _ => none) ("mc:" ++ toString i))) c).get d)
        = sumCounts (c.get d) + l.length := by
  intro l
  induction l with
  | nil => intro c; simp
  | cons i rest ih =>
      intro c
      simp only [List.foldl_cons, List.length_cons]
      rw [ih, tallyPicks_get, sumCounts_bump]
      omega

/-! ## Heap frame lemmas -/

theorem take_set_of_le : ∀ (l : Heap) (a n : Nat) (it : Item), n ≤ a →
    (l.set a it).take n = l.take n := by
  intro l
  induction l with
  | nil => intro a n it _; simp
  | cons x xs ih =>
      intro a n it hn
      cases a with
      | zero =>
          have hz : n = 0 := Nat.le_zero.mp hn
          subst hz; simp
      | succ a' =>
          cases n with
          | zero => simp
          | succ m =>
              have h1 : (x :: xs).set (a' + 1) it = x :: xs.set a' it := rfl
              have h2 : ∀ ys : Heap, (x :: ys).take (m + 1) = x :: ys.take m :=
                fun ys => rfl
              rw [h1, h2, h2, ih a' m it (Nat.le_of_succ_le_succ hn)]

theorem adjustPool_length (f : Item → Item) :
    ∀ (addrs : List Nat) (hp : Heap), (adjustPool f hp addrs).length = hp.length := by
  intro addrs
  induction addrs with
  | nil => intro hp; rfl
  | cons a rest ih =>
      intro hp
      simp only [adjustPool]
      rw [ih]
      simp [hwrite]

theorem adjustPool_take (f : Item → Item) :
    ∀ (addrs : List Nat) (hp : Heap) (n : Nat), (∀ a ∈ addrs, n ≤ a) →
      (adjustPool f hp addrs).take n = hp.take n := by
  intro addrs
  induction addrs with
  | nil => intro hp n _; rfl
  | cons a rest ih =>
      intro hp n hb
      simp only [adjustPool, hwrite]
      rw [ih _ _ (fun x hx => hb x (by simp [hx]))]
      exact take_set_of_le hp a n _ (hb a (by simp))

theorem ifAdjust_take (b : Prop) [Decidable b] (f f' : Item → Item) (hp : Heap)
    (addrs : List Nat) (n : Nat) (h : ∀ a ∈ addrs, n ≤ a) :
    (if b then adjustPool f hp addrs else adjustPool f' hp addrs).take n = hp.take n := by
  split
  · exact adjustPool_take f addrs hp n h
  · exact adjustPool_take f' addrs hp n h

theorem ifAdjust_take1 (b : Prop) [Decidable b] (f : Item → Item) (hp : Heap)
    (addrs : List Nat) (n : Nat) (h : ∀ a ∈ addrs, n ≤ a) :
    (if b then adjustPool f hp addrs else hp).take n = hp.take n := by
  split
  · exact adjustPool_take f addrs hp n h
  · rfl

theorem ifAdjust_length (b : Prop) [Decidable b] (f f' : Item → Item) (hp : Heap)
    (addrs : List Nat) :
    (if b then adjustPool f hp addrs else adjustPool f' hp addrs).length = hp.length := by
  split
  · exact adjustPool_length f addrs hp
  · exact adjustPool_length f' addrs hp

theorem ifAdjust_length1 (b : Prop) [Decidable b] (f : Item → Item) (hp : Heap)
    (addrs : List Nat) :
    (if b then adjustPool f hp addrs else hp).length = hp.length := by
  split
  · exact adjustPool_length f addrs hp
  · rfl

theorem copyPool_frame :
    ∀ (addrs : List Nat) (hp : Heap) (n : Nat), n ≤ hp.length →
      (copyPool hp addrs).1.take n = hp.take n ∧
      hp.length ≤ (copyPool hp addrs).1.length ∧
      ∀ a ∈ (copyPool hp addrs).2, hp.length ≤ a := by
  intro addrs
  induction addrs with
  | nil =>
      intro hp n _
      exact ⟨rfl, Nat.le_refl _, by simp [copyPool]⟩
  | cons a rest ih =>
      intro hp n hn
      simp only [copyPool, halloc]
      obtain ⟨t, l, b⟩ := ih (hp ++ [hread hp a]) n (by simp; omega)
      refine ⟨?_, ?_, ?_⟩
      · rw [t]
        exact List.take_append_of_le_length hn
      · calc hp.length ≤ (hp ++ [hread hp a]).length := by simp
          _ ≤ _ := l
      · intro x hx
        simp only [List.mem_cons] at hx
        rcases hx with rfl | hx
        · exact Nat.le_refl _
        · have hb := b x hx
          simp at hb
          omega

theorem carPoolH_frame (hp : Heap) (p : PicksH) (n : Nat) (hn : n ≤ hp.length) :
    (carPoolH hp p).1.take n = hp.take n ∧ hp.length ≤ (carPoolH hp p).1.length := by
  obtain ⟨t, l, b⟩ := copyPool_frame (tableAddrs .car) hp n hn
  have hb : ∀ a ∈ (copyPool hp (tableAddrs .car)).2, n ≤ a :=
    fun a ha => le_trans hn (b a ha)
  simp only [carPoolH]
  constructor
  · rw [ifAdjust_take1 _ _ _ _ _ hb, ifAdjust_take _ _ _ _ _ _ hb]
    exact t
  · rw [ifAdjust_length1, ifAdjust_length]
    exact l

theorem housePoolH_frame (hp : Heap) (p : PicksH) (carRef : Option Nat) (hcar : Heap)
    (n : Nat) (hn : n ≤ hcar.length) :
    (housePoolH hp p carRef hcar).1.take n = hcar.take n ∧
    hcar.length ≤ (housePoolH hp p carRef hcar).1.length := by
  obtain ⟨t, l, b⟩ := copyPool_frame (tableAddrs .house) hcar n hn
  have hb : ∀ a ∈ (copyPool hcar (tableAddrs .house)).2, n ≤ a :=
    fun a ha => le_trans hn (b a ha)
  simp only [housePoolH]
  constructor
  · rw [ifAdjust_take1 _ _ _ _ _ hb, ifAdjust_take1 _ _ _ _ _ hb,
      ifAdjust_take1 _ _ _ _ _ hb]
    exact t
  · rw [ifAdjust_length1, ifAdjust_length1, ifAdjust_length1]
    exact l

theorem famePoolH_frame (hp7 : Heap) (creator : Bool) (n : Nat) (hn : n ≤ hp7.length) :
    (famePoolH hp7 creator).1.take n = hp7.take n ∧
    hp7.length ≤ (famePoolH hp7 creator).1.length := by
  obtain ⟨t, l, b⟩ := copyPool_frame (tableAddrs .fame) hp7 n hn
  have hb : ∀ a ∈ (copyPool hp7 (tableAddrs .fame)).2, n ≤ a :=
    fun a ha => le_trans hn (b a ha)
  simp only [famePoolH]
  constructor
  · rw [ifAdjust_take1 _ _ _ _ _ hb]
    exact t
  · rw [ifAdjust_length1]
    exact l

theorem apply_rulesH_frame (hp : Heap) (p : PicksH) (g : Rng) (n : Nat)
    (hn : n ≤ hp.length) :
    (apply_rulesH hp p g).1.take n = hp.take n ∧
    hp.length ≤ (apply_rulesH hp p g).1.length := by
  obtain ⟨t1, l1⟩ := carPoolH_frame hp p n hn
  obtain ⟨t2, l2⟩ := housePoolH_frame hp p
    (weighted_choiceH g (carPoolH hp p).1 (carPoolH hp p).2).1 (carPoolH hp p).1 n
    (le_trans hn l1)
  obtain ⟨t3, l3⟩ := famePoolH_frame
    (housePoolH hp p (weighted_choiceH g (carPoolH hp p).1 (carPoolH hp p).2).1
      (carPoolH hp p).1).1
    (decide ("creator" ∈ (hreadO hp p.career).tags ∨
      (hreadO hp p.career).id = "founder" ∨ (hreadO hp p.career).id = "cinematic_vfx"))
    n (le_trans (le_trans hn l1) l2)
  constructor
  · exact t3.trans (t2.trans t1)
  · exact le_trans l1 (le_trans l2 l3)

theorem pick_allH_frame (hp : Heap) (B : Backend) (name timeline : String)
    (lock : Domain → Option Nat) (salt : String) (n : Nat) (hn : n ≤ hp.length) :
    (pick_allH hp B name timeline lock salt).1.take n = hp.take n ∧
    hp.length ≤ (pick_allH hp B name timeline lock salt).1.length := by
  simp only [pick_allH]
  exact apply_rulesH_frame hp _ _ n hn

theorem monte_carloH_foldl_frame (B : Backend) (name timeline : String) :
    ∀ (l : List Nat) (acc : Heap × Counts) (n : Nat), n ≤ acc.1.length →
      ((l.foldl (fun acc i =>
          let r := pick_allH acc.1 B name timeline (fun _ => none) ("mc:" ++ toString i)
          (r.1, tallyPicksH r.1 acc.2 r.2)) acc).1.take n = acc.1.take n ∧
       acc.1.length ≤ (l.foldl (fun acc i =>
          let r := pick_allH acc.1 B name timeline (fun _ => none) ("mc:" ++ toString i)
          (r.1, tallyPicksH r.1 acc.2 r.2)) acc).1.length) := by
  intro l
  induction l with
  | nil => intro acc n _; exact ⟨rfl, Nat.le_refl _⟩
  | cons i rest ih =>
      intro acc n hn
      simp only [List.foldl_cons]
      obtain ⟨tp, lp⟩ :=
        pick_allH_frame acc.1 B name timeline (fun _ => none) ("mc:" ++ toString i) n hn
      obtain ⟨tf, lf⟩ := ih
        ((pick_allH acc.1 B name timeline (fun _ => none) ("mc:" ++ toString i)).1,
         tallyPicksH (pick_allH acc.1 B name timeline (fun _ => none)
            ("mc:" ++ toString i)).1 acc.2
           (pick_allH acc.1 B name timeline (fun _ => none) ("mc:" ++ toString i)).2)
        n (le_trans hn lp)
      exact ⟨tf.trans tp, le_trans lp lf⟩

theorem monte_carloH_frame (hp : Heap) (B : Backend) (name timeline : String)
    (trials : Nat) (n : Nat) (hn : n ≤ hp.length) :
    (monte_carloH hp B name timeline trials).1.take n = hp.take n := by
  simp only [monte_carloH]
  exact (monte_carloH_foldl_frame B name timeline (List.range trials) (hp, {}) n hn).1

theorem hread_take_eq (h1 h2 : Heap) (n a : Nat) (ht : h1.take n = h2.take n)
    (ha : a < n) : hread h1 a = hread h2 a := by
  simp only [hread, List.getD_eq_getElem?_getD]
  have e1 : h1[a]? = (h1.take n)[a]? := by rw [List.getElem?_take]; simp [ha]
  have e2 : h2[a]? = (h2.take n)[a]? := by rw [List.getElem?_take]; simp [ha]
  rw [e1, e2, ht]

/-! ## Claim theorems -/

/-- **C9**: `fame_meter` renders a bar of total length exactly 10 whose
filled-slot count is the fame level clamped to `[0, 10]`, the rest empty. -/
theorem fame_meter_ten_slots (level : Int) :
    (fame_meter level).length = 10 ∧
    (fame_meter level).data.count '★' = (max 0 (min level 10)).toNat ∧
    (fame_meter level).data.count '☆' = 10 - (max 0 (min level 10)).toNat := by
  have hlv : (max 0 (min level 10)).toNat ≤ 10 := by omega
  refine ⟨?_, ?_, ?_⟩
  · simp only [fame_meter, String.length, String.data, List.length_append,
      List.length_replicate]
    omega
  · simp [fame_meter, List.count_append, List.count_replicate]
  · simp [fame_meter, List.count_append, List.count_replicate]

/-- **C2 (amended)**: on an empty candidate list `weighted_choice` does not
signal an error; it returns the empty dict `{}` and leaves the random source
untouched. -/
theorem weighted_choice_empty_no_error (g : Rng) :
    (weighted_choice g []).1 = Item.empty ∧ (weighted_choice g []).2 = g :=
  ⟨rfl, rfl⟩

/-- **C2 (counterexample)**: at the concrete rng `g0`, the sampler applied to
the empty list returns the value `{}` instead of rejecting the input — the
claim that it signals an error rather than returning any value is false. -/
theorem weighted_choice_empty_returns_empty_dict :
    (weighted_choice g0 []).1 = Item.empty ∧ (weighted_choice g0 []).2 = g0 :=
  ⟨rfl, rfl⟩

/-- **C4**: on a non-empty pool in which every weight is zero, the sampler
returns the first item in iteration order and consumes no randomness. -/
theorem weighted_choice_all_zero_first (g : Rng) (items : List Item)
    (h : items ≠ []) (hz : ∀ it ∈ items, it.weight = 0) :
    (weighted_choice g items).1 = items.headD Item.empty ∧
    (weighted_choice g items).2 = g := by
  obtain ⟨it, rest, rfl⟩ : ∃ it rest, items = it :: rest := by
    cases items with
    | nil => exact absurd rfl h
    | cons a l => exact ⟨a, l, rfl⟩
  have hw : wclamp it = 0 := by
    simp [wclamp, hz it (by simp)]
  have hrest : (rest.map wclamp).sum = 0 := by
    apply List.sum_eq_zero
    intro x hx
    simp only [List.mem_map] at hx
    obtain ⟨y, hy, rfl⟩ := hx
    simp [wclamp, hz y (by simp [hy])]
  constructor
  · simp [weighted_choice, wcScan, hw, hrest]
  · simp [weighted_choice, wcScan, hw, hrest]

/-- **C4 (witness)**: the all-zero theorem at a concrete two-item pool. -/
theorem weighted_choice_all_zero_first_witness :
    (weighted_choice g0 zeroItems).1 = zeroItems.headD Item.empty ∧
    (weighted_choice g0 zeroItems).2 = g0 :=
  weighted_choice_all_zero_first g0 zeroItems (by decide)
    (by intro it hmem; fin_cases hmem <;> rfl)

/-- **C10**: on any non-empty candidate list, whatever the weights and the
draw, `weighted_choice` returns an element of the list (it never fails: the
cumulative scan clamps weights at zero and the fall-through returns the last
item). -/
theorem weighted_choice_total_mem (g : Rng) (items : List Item) (h : items ≠ []) :
    (weighted_choice g items).1 ∈ items := by
  simp only [weighted_choice]
  split
  next it hscan => exact wcScan_mem _ items 0 it hscan
  next hscan => exact getLastD_mem Item.empty items h

/-- **C10 (witness)**: a pool with a negative and a missing weight still
yields one of its own items. -/
theorem weighted_choice_total_mem_witness :
    (weighted_choice g0 [{ id := "neg", weight := -5 }, { id := "none" }]).1
      ∈ [({ id := "neg", weight := -5 } : Item), { id := "none" }] :=
  weighted_choice_total_mem g0 _ (by decide)

/-- **C3 (amended)**: the base seed is SHA-256 of the normalized
`"<name>::<timeline>"` key modulo `2^32 - 1`, and whenever a non-empty salt
is supplied the final seed agrees with the spec's description (rehash of
`"<base>:<salt>"` modulo `2^32 - 1`); with an empty salt the code still
rehashes `"<base>:"`, so the final seed is then NOT the base seed. -/
theorem seed_salted_matches_spec (name timeline salt : String) (h : salt ≠ "") :
    rng_for_seed name timeline salt = seedSpec name timeline salt := by
  simp [rng_for_seed, seedSpec, h]

/-- **C3 (witness)**: the salted agreement at `("Ada", "prime", "x")`. -/
theorem seed_salted_matches_spec_witness :
    ("x" : String) ≠ "" ∧
    rng_for_seed "Ada" "prime" "x" = seedSpec "Ada" "prime" "x" :=
  ⟨by decide, seed_salted_matches_spec "Ada" "prime" "x" (by decide)⟩

/-- **C3 (counterexample)**: with no salt supplied the final seed does NOT
equal the base seed: for `("Ada", "prime")` the base seed is 755270771 but
`rng_for` seeds the generator with SHA-256 of `"755270771:"` reduced modulo
`2^32 - 1`, which is 895004192. -/
theorem seed_unsalted_rehashes_cex :
    rng_for_seed "Ada" "prime" "" = 895004192 ∧
    seedSpec "Ada" "prime" "" = 755270771 ∧
    rng_for_seed "Ada" "prime" "" ≠ seedSpec "Ada" "prime" "" := by
  refine ⟨by decide, by decide, by decide⟩

/-- **C6**: Monte Carlo conservation — with a positive trial count `n`, each
domain's tally counts sum to exactly `n`. -/
theorem monte_carlo_conservation (B : Backend) (name timeline : String) (n : Nat)
    (_h : 0 < n) (d : Domain) :
    sumCounts ((monte_carlo B name timeline n).get d) = n := by
  unfold monte_carlo
  rw [monte_carlo_foldl]
  simp [sumCounts, Counts.get]
  cases d <;> simp [Counts.get, sumCounts]

/-- **C6 (witness)**: conservation at 3 trials of `("Ada", "prime")` over the
concrete back end `B0`, for the car domain. -/
theorem monte_carlo_conservation_witness :
    0 < 3 ∧ sumCounts ((monte_carlo B0 "Ada" "prime" 3).get Domain.car) = 3 :=
  ⟨by decide, monte_carlo_conservation B0 "Ada" "prime" 3 (by decide) Domain.car⟩

/-- **C7**: the car prestige/fame-synergy rule fires exactly one of its two
branches on every invocation: the trace gains exactly one rule-1 entry
(boost when prestige ≥ 8 and fame ≥ 7, damped otherwise, and no other
appended entry is a rule-1 entry), and the adjusted car pool carries
`3 + 3` on the ultra-luxury EV in the boost branch and
`max 1 (3 - 2)` in the damp branch, all other weights untouched. -/
theorem apply_rules_car_rule1_exactly_one (p : Picks) (g : Rng) :
    ∃ rest : List String,
      (apply_rules p g).1.trace =
        p.trace ++ [carRule1Msg (prestigeOf p) (fameLevelOf p)] ++ rest ∧
      "car: luxury boost (prestige ≥8 & fame ≥7)" ∉ rest ∧
      "car: luxury damped (prestige/fame below threshold)" ∉ rest ∧
      carRule1Msg (prestigeOf p) (fameLevelOf p) =
        (if 8 ≤ prestigeOf p ∧ 7 ≤ fameLevelOf p
         then "car: luxury boost (prestige ≥8 & fame ≥7)"
         else "car: luxury damped (prestige/fame below threshold)") ∧
      (carRule1Pool (prestigeOf p) (fameLevelOf p)).map (fun it => (it.id, it.weight)) =
        (if 8 ≤ prestigeOf p ∧ 7 ≤ fameLevelOf p
         then [("solid_ev", 10), ("ultra_lux_ev", 3 + 3), ("retro_mod", 4),
               ("no_car_city", 6), ("smart_scooter", 5)]
         else [("solid_ev", 10), ("ultra_lux_ev", max 1 (3 - 2)), ("retro_mod", 4),
               ("no_car_city", 6), ("smart_scooter", 5)]) := by
  refine ⟨rulesTraceTail p g, rfl, ?_, ?_, rfl, ?_⟩
  · unfold rulesTraceTail
    split_ifs <;> simp
  · unfold rulesTraceTail
    split_ifs <;> simp
  · by_cases hc : 8 ≤ prestigeOf p ∧ 7 ≤ fameLevelOf p
    · simp [carRule1Pool, hc, TRAITS_car, ultraBoost]
    · simp [carRule1Pool, hc, TRAITS_car, ultraDamp]

/-- **C8**: rerolling any domain other than `relationship` locks the
relationship item: the rerolled pick-set carries the base pick-set's
relationship item unchanged (no rule re-samples relationship). -/
theorem reroll_keeps_relationship (B : Backend) (name timeline : String)
    (target : Domain) (base : Picks) (h1 : target ≠ Domain.relationship)
    (h2 : base.relationship ≠ Item.empty) :
    (reroll_section B name timeline target base).relationship = base.relationship := by
  have hne : ¬(Domain.relationship = target) := fun h => h1 h.symm
  unfold reroll_section pick_all
  rw [apply_rules_relationship]
  simp only [hne, if_false, Picks.get, lockOr_truthy _ _ _ h2]

/-- **C8 (witness)**: rerolling the career of a concrete pick-set leaves its
relationship item in place. -/
theorem reroll_keeps_relationship_witness :
    Domain.career ≠ Domain.relationship ∧
    witnessBase.relationship ≠ Item.empty ∧
    (reroll_section B0 "Ada" "prime" Domain.career witnessBase).relationship =
      witnessBase.relationship :=
  ⟨by decide, by decide,
   reroll_keeps_relationship B0 "Ada" "prime" Domain.career witnessBase
     (by decide) (by decide)⟩

/-- **C5**: the global trait tables are never mutated.  In the heap-level
embedding (explicit dict identity and in-place writes), running any of
`apply_rules`, `pick_all`, `monte_carlo` or `reroll_section` on any store
leaves every pre-existing cell — in particular the whole `TRAITS` region —
exactly as it was: all writes land in the freshly allocated `dict(x)`
copies.  Consequently, after a full Monte Carlo run over the table store,
reading the five tables back yields `TRAITS` unchanged. -/
theorem tables_never_mutated (hp : Heap) (p : PicksH) (g : Rng) (B : Backend)
    (name timeline salt : String) (lock : Domain → Option Nat) (trials : Nat)
    (domain : Domain) (base : PicksH) :
    (apply_rulesH hp p g).1.take hp.length = hp ∧
    (pick_allH hp B name timeline lock salt).1.take hp.length = hp ∧
    (monte_carloH hp B name timeline trials).1.take hp.length = hp ∧
    (reroll_sectionH hp B name timeline domain base).1.take hp.length = hp ∧
    ∀ d : Domain,
      (tableAddrs d).map (hread (monte_carloH heapTRAITS B name timeline trials).1) =
        TRAITS d := by
  have htk : hp.take hp.length = hp := List.take_length hp
  refine ⟨?_, ?_, ?_, ?_, ?_⟩
  · rw [(apply_rulesH_frame hp p g hp.length (Nat.le_refl _)).1, htk]
  · rw [(pick_allH_frame hp B name timeline lock salt hp.length (Nat.le_refl _)).1, htk]
  · rw [monte_carloH_frame hp B name timeline trials hp.length (Nat.le_refl _), htk]
  · simp only [reroll_sectionH]
    rw [(pick_allH_frame hp B name timeline _ _ hp.length (Nat.le_refl _)).1, htk]
  · intro d
    have hlen : heapTRAITS.length = 28 := rfl
    have hfr := monte_carloH_frame heapTRAITS B name timeline trials 28 hlen.ge
    have hmem : ∀ x ∈ tableAddrs d, x < 28 := by cases d <;> decide
    have hmap : (tableAddrs d).map
          (hread (monte_carloH heapTRAITS B name timeline trials).1) =
        (tableAddrs d).map (hread heapTRAITS) := by
      apply List.map_congr_left
      intro a ha
      exact hread_take_eq _ _ 28 a hfr (hmem a ha)
    rw [hmap]
    cases d <;> decide

/-- **C1 (code defect)**: determinism of the full pipeline fails for the
narrative.  The pick-set and trace are a pure function of
`(name, timeline, salt)` (two runs agree), but `microfacts_for` iterates a
Python SET of tag strings, whose order is scrambled by per-process hash
randomization: `ord1` and `ord2` are both legal enumeration orders of the
same tag pool of the `("Ada", "prime")` pick-set, yet they render different
narrative texts under the same back end, seed and salt. -/
theorem narrative_hash_order_dependent :
    IsTagOrder adaPicks ord1 ∧ IsTagOrder adaPicks ord2 ∧
    pick_all B0 "Ada" "prime" (fun _ => none) "" =
      pick_all B0 "Ada" "prime" (fun _ => none) "" ∧
    narrative B0 ord1 "Ada" adaPicks "prime" ≠
      narrative B0 ord2 "Ada" adaPicks "prime" := by
  refine ⟨?_, ?_, rfl, ?_⟩
  · decide
  · decide
  · decide

end LifeGoals
